import Mathlib

/-!
Shallow embedding of `src/src/main.rs` (Pedersen-commitment confidential
transaction demo) and verification of its specification claims.

Rust `i64` arithmetic is modelled over `Int`; Rust's `%` operator is
truncated remainder, modelled by `Int.tmod`.  Overflow questions are
treated explicitly through the `i64_range` predicate.
-/

namespace PedersenTx

/-- `const MODULUS: i64 = 2_i64.pow(61) - 1;` (main.rs line 11). -/
def MODULUS : Int := 2 ^ 61 - 1

/-- `const G: i64 = 3;` — generator for the value dimension (main.rs line 12). -/
def G : Int := 3

/-- `const H: i64 = 7;` — generator for the blinding dimension (main.rs line 13). -/
def H : Int := 7

/-- `fn pedersen_commit(value: i64, blinding: i64) -> i64` (main.rs lines 19-22):
`let term = value * G + blinding * H; ((term % MODULUS) + MODULUS) % MODULUS`.
Rust `%` is truncated remainder (`Int.tmod`). -/
def pedersen_commit (value blinding : Int) : Int :=
  let term := value * G + blinding * H
  (term.tmod MODULUS + MODULUS).tmod MODULUS

/-- `fn toy_range_proof_create(value: i64, commitment: i64) -> i64`
(main.rs lines 35-38): `valid_bit = if value >= 0 { 1 } else { 0 };
commitment * 2 + valid_bit`. -/
def toy_range_proof_create (value commitment : Int) : Int :=
  let valid_bit : Int := if value ≥ 0 then 1 else 0
  commitment * 2 + valid_bit

/-- `fn toy_range_proof_verify(commitment: i64, proof: i64) -> bool`
(main.rs lines 42-44): `proof == commitment * 2 + 1`. -/
def toy_range_proof_verify (commitment proof : Int) : Bool :=
  proof == commitment * 2 + 1

/-- The inline aggregation in `main` (main.rs line 107):
`let sum_outputs = ((c_bob + c_change) % MODULUS + MODULUS) % MODULUS;`. -/
def sum_outputs (c_bob c_change : Int) : Int :=
  ((c_bob + c_change).tmod MODULUS + MODULUS).tmod MODULUS

/-- The inline balance check in `main` (main.rs line 108):
`let inputs_match_outputs = c_input == sum_outputs;`. -/
def inputs_match_outputs (c_input c_bob c_change : Int) : Bool :=
  c_input == sum_outputs c_bob c_change

/-- The value range of Rust's `i64` type. -/
def i64_range (x : Int) : Prop := -(2 ^ 63) ≤ x ∧ x ≤ 2 ^ 63 - 1

instance (x : Int) : Decidable (i64_range x) := by
  unfold i64_range; infer_instance

/-- The intermediate computation `value * G + blinding * H` of
`pedersen_commit` stays inside `i64` at every step (each product and the
final sum), i.e. does not overflow before the modular reduction. -/
def commit_intermediate_in_range (value blinding : Int) : Prop :=
  i64_range (value * G) ∧ i64_range (blinding * H) ∧
    i64_range (value * G + blinding * H)

instance (v b : Int) : Decidable (commit_intermediate_in_range v b) := by
  unfold commit_intermediate_in_range; infer_instance

/-! ### Arithmetic bridge: the Rust reduction pattern computes a floored modulus -/

theorem MODULUS_pos : (0 : Int) < MODULUS := by decide

theorem neg_lt_tmod (x : Int) {p : Int} (hp : 0 < p) : -p < x.tmod p := by
  rcases x with m | m
  · have h0 : (0 : Int) ≤ Int.ofNat m := by
      rw [Int.ofNat_eq_coe]; exact Int.natCast_nonneg m
    have := Int.tmod_nonneg p h0
    omega
  · rcases p with n | n
    · have hn : 0 < n := by
        by_contra hc
        have : n = 0 := by omega
        subst this
        exact absurd hp (by decide)
      have heq : Int.tmod (Int.negSucc m) (Int.ofNat n) =
          -(Int.ofNat ((m + 1) % n)) := rfl
      rw [heq, Int.ofNat_eq_coe, Int.ofNat_eq_coe]
      have hlt : (m + 1) % n < n := Nat.mod_lt _ hn
      omega
    · exact absurd hp (not_lt.mpr (le_of_lt (Int.negSucc_lt_zero n)))

/-- The Rust idiom `((x % p) + p) % p` (with truncated `%`) equals the
floored remainder `x.emod p` for a positive modulus. -/
theorem rust_reduce_eq_emod (x : Int) {p : Int} (hp : 0 < p) :
    (x.tmod p + p).tmod p = x % p := by
  have hlow : -p < x.tmod p := neg_lt_tmod x hp
  have hnn : 0 ≤ x.tmod p + p := by omega
  rw [Int.tmod_eq_emod hnn (le_of_lt hp)]
  have hcongr : (x.tmod p + p) % p = (x.tmod p) % p := by
    have := Int.add_mul_emod_self_left (x.tmod p) p 1
    rwa [Int.mul_one] at this
  rw [hcongr, Int.tmod_def, Int.sub_emod, Int.mul_emod_right]
  simp

theorem pedersen_commit_eq_emod (value blinding : Int) :
    pedersen_commit value blinding = (value * G + blinding * H) % MODULUS := by
  unfold pedersen_commit
  exact rust_reduce_eq_emod _ MODULUS_pos

theorem sum_outputs_eq_emod (c1 c2 : Int) :
    sum_outputs c1 c2 = (c1 + c2) % MODULUS := by
  unfold sum_outputs
  exact rust_reduce_eq_emod _ MODULUS_pos

/-- Homomorphism of the commitment scheme, shared by several theorems below:
the inline modular aggregation of two commitments equals the commitment to
the componentwise sums. -/
theorem pedersen_hom (v1 r1 v2 r2 : Int) :
    sum_outputs (pedersen_commit v1 r1) (pedersen_commit v2 r2) =
      pedersen_commit (v1 + v2) (r1 + r2) := by
  rw [sum_outputs_eq_emod, pedersen_commit_eq_emod, pedersen_commit_eq_emod,
    pedersen_commit_eq_emod]
  rw [Int.add_emod_emod, Int.emod_add_emod]
  ring_nf

/-- Cancellation of the generator `H = 7` modulo `MODULUS`, via the explicit
Bezout identity `MODULUS - 7 * 329406144173384850 = 1`. -/
theorem modulus_dvd_of_dvd_mul_seven {d : Int} (h : MODULUS ∣ 7 * d) :
    MODULUS ∣ d := by
  obtain ⟨t, ht⟩ := h
  have h1 : MODULUS - 7 * 329406144173384850 = 1 := by decide
  refine ⟨d - 329406144173384850 * t, ?_⟩
  calc d = d * (MODULUS - 7 * 329406144173384850) := by rw [h1]; ring
    _ = d * MODULUS - 329406144173384850 * (7 * d) := by ring
    _ = d * MODULUS - 329406144173384850 * (MODULUS * t) := by rw [ht]
    _ = MODULUS * (d - 329406144173384850 * t) := by ring

/-! ### Claims -/

/-- Claim C1: range-proof round trip is complete and sound with respect to the
sign of the value.  For every integer value `v` and blinding `r`, with
`C = pedersen_commit v r`, verification of the proof created for `(v, C)`
against `C` returns `true` iff `v ≥ 0` and returns `false` iff `v < 0`. -/
theorem claim_C1_range_proof_roundtrip (v r : Int) :
    (toy_range_proof_verify (pedersen_commit v r)
        (toy_range_proof_create v (pedersen_commit v r)) = true ↔ 0 ≤ v) ∧
    (toy_range_proof_verify (pedersen_commit v r)
        (toy_range_proof_create v (pedersen_commit v r)) = false ↔ v < 0) := by
  unfold toy_range_proof_verify toy_range_proof_create
  by_cases h : v ≥ 0 <;> simp [h] <;> omega

/-- Claim C2: the commitment scheme is additively homomorphic.  For all
integers `v1, r1, v2, r2`, the modular sum (as computed inline in `main`) of
`pedersen_commit v1 r1` and `pedersen_commit v2 r2` equals
`pedersen_commit (v1 + v2) (r1 + r2)`. -/
theorem claim_C2_homomorphism (v1 r1 v2 r2 : Int) :
    sum_outputs (pedersen_commit v1 r1) (pedersen_commit v2 r2) =
      pedersen_commit (v1 + v2) (r1 + r2) :=
  pedersen_hom v1 r1 v2 r2

/-- Claim C3: the honest balance check always passes.  With
`value_input = value_a + value_b` and `blinding_input = blinding_a +
blinding_b`, comparing `pedersen_commit value_input blinding_input` against
the modular sum of the two output commitments returns `true`. -/
theorem claim_C3_honest_balance (value_a value_b blinding_a blinding_b : Int) :
    inputs_match_outputs
      (pedersen_commit (value_a + value_b) (blinding_a + blinding_b))
      (pedersen_commit value_a blinding_a)
      (pedersen_commit value_b blinding_b) = true := by
  unfold inputs_match_outputs
  rw [pedersen_hom]
  simp

/-- Claim C4: range proofs are non-transferable.  For every integer `v` and
all commitments `c1 ≠ c2`, verifying against `c2` a proof created for `c1`
returns `false`. -/
theorem claim_C4_non_transferable (v c1 c2 : Int) (hne : c1 ≠ c2) :
    toy_range_proof_verify c2 (toy_range_proof_create v c1) = false := by
  unfold toy_range_proof_verify toy_range_proof_create
  by_cases h : v ≥ 0 <;> simp [h] <;> omega

theorem claim_C4_witness :
    (0 : Int) ≠ 1 ∧
      toy_range_proof_verify 1 (toy_range_proof_create (-5) 0) = false :=
  ⟨by decide, claim_C4_non_transferable (-5) 0 1 (by decide)⟩

/-- Claim C5 (counterexample): the claim "for every pair of `i64` inputs the
intermediate computation `value * G + blinding * H` does not overflow `i64`"
is false: `value = 2 ^ 62` and `blinding = 0` are `i64` values, yet already
the product `value * G = 3 * 2 ^ 62` exceeds `i64::MAX = 2 ^ 63 - 1`. -/
theorem claim_C5_counterexample :
    i64_range (2 ^ 62) ∧ i64_range (0 : Int) ∧
      ¬ commit_intermediate_in_range (2 ^ 62) 0 := by
  decide

/-- Claim C5 (amended): for every pair of `i64` inputs whose magnitudes
satisfy `3 * |value| + 7 * |blinding| ≤ 2 ^ 63 - 1` (in particular all
inputs of magnitude at most `2 ^ 59`), the intermediate computation
`value * G + blinding * H` inside `pedersen_commit` stays inside the
64-bit signed range at every step. -/
theorem claim_C5_amended_no_overflow (value blinding : Int)
    (h : 3 * |value| + 7 * |blinding| ≤ 2 ^ 63 - 1) :
    commit_intermediate_in_range value blinding := by
  unfold commit_intermediate_in_range i64_range G H
  have hv0 : 0 ≤ |value| := abs_nonneg value
  have hr0 : 0 ≤ |blinding| := abs_nonneg blinding
  have hva : |value * 3| = 3 * |value| := by
    rw [abs_mul, abs_of_nonneg (by norm_num : (0:Int) ≤ 3), mul_comm]
  have hrb : |blinding * 7| = 7 * |blinding| := by
    rw [abs_mul, abs_of_nonneg (by norm_num : (0:Int) ≤ 7), mul_comm]
  have h1 : |value * 3| ≤ 2 ^ 63 - 1 := by rw [hva]; omega
  have h2 : |blinding * 7| ≤ 2 ^ 63 - 1 := by rw [hrb]; omega
  have h3 : |value * 3 + blinding * 7| ≤ 2 ^ 63 - 1 := by
    have := abs_add (value * 3) (blinding * 7)
    omega
  obtain ⟨a1, a2⟩ := abs_le.mp h1
  obtain ⟨b1, b2⟩ := abs_le.mp h2
  obtain ⟨c1, c2⟩ := abs_le.mp h3
  exact ⟨⟨by omega, by omega⟩, ⟨by omega, by omega⟩, ⟨by omega, by omega⟩⟩

theorem claim_C5_witness :
    3 * |(10 : Int)| + 7 * |(12345 : Int)| ≤ 2 ^ 63 - 1 ∧
      commit_intermediate_in_range 10 12345 :=
  ⟨by decide, claim_C5_amended_no_overflow 10 12345 (by decide)⟩

/-- Claim C6: the balance check rejects a blinding mismatch.  If the values
balance (`value_input = value_a + value_b`) but the input blinding is not
congruent to `blinding_a + blinding_b` modulo `MODULUS`, the balance check
returns `false`. -/
theorem claim_C6_balance_rejects_mismatch
    (value_a value_b blinding_input blinding_a blinding_b : Int)
    (hne : ¬ Int.ModEq MODULUS blinding_input (blinding_a + blinding_b)) :
    inputs_match_outputs
      (pedersen_commit (value_a + value_b) blinding_input)
      (pedersen_commit value_a blinding_a)
      (pedersen_commit value_b blinding_b) = false := by
  unfold inputs_match_outputs
  rw [pedersen_hom, beq_eq_false_iff_ne]
  intro heq
  apply hne
  rw [pedersen_commit_eq_emod, pedersen_commit_eq_emod] at heq
  have hmod : Int.ModEq MODULUS
      ((value_a + value_b) * G + blinding_input * H)
      ((value_a + value_b) * G + (blinding_a + blinding_b) * H) := heq
  have h2 : Int.ModEq MODULUS (blinding_input * H)
      ((blinding_a + blinding_b) * H) :=
    Int.ModEq.add_left_cancel' _ hmod
  have h3 : MODULUS ∣ (blinding_a + blinding_b) * H - blinding_input * H :=
    Int.ModEq.dvd h2
  have h4 : MODULUS ∣ 7 * ((blinding_a + blinding_b) - blinding_input) := by
    have e : (blinding_a + blinding_b) * H - blinding_input * H =
        7 * ((blinding_a + blinding_b) - blinding_input) := by
      unfold H; ring
    rwa [e] at h3
  exact Int.modEq_iff_dvd.mpr (modulus_dvd_of_dvd_mul_seven h4)

theorem claim_C6_witness :
    ¬ Int.ModEq MODULUS 1 (0 + 0) ∧
      inputs_match_outputs (pedersen_commit (0 + 0) 1)
        (pedersen_commit 0 0) (pedersen_commit 0 0) = false :=
  ⟨by decide, claim_C6_balance_rejects_mismatch 0 0 1 0 0 (by decide)⟩

/-- Claim C7: end-to-end attack scenario.  With `value_input = 10`,
`r_input = 99999`, `value_to_bob = 15`, `r_bob = 11111`, `value_change = -5`,
`r_change = 99999 - 11111 = 88888`, the balance check returns `true` while
the range-proof verification of the change commitment returns `false`. -/
theorem claim_C7_attack_scenario :
    inputs_match_outputs (pedersen_commit 10 99999) (pedersen_commit 15 11111)
        (pedersen_commit (-5) (99999 - 11111)) = true ∧
      toy_range_proof_verify (pedersen_commit (-5) (99999 - 11111))
        (toy_range_proof_create (-5) (pedersen_commit (-5) (99999 - 11111)))
        = false := by
  decide

/-- Claim C8: canonicalization invariant.  The result of `pedersen_commit`
and the result of the modular aggregation of two commitments always lie in
`[0, MODULUS)`. -/
theorem claim_C8_canonical_range (v r c1 c2 : Int) :
    (0 ≤ pedersen_commit v r ∧ pedersen_commit v r < MODULUS) ∧
      (0 ≤ sum_outputs c1 c2 ∧ sum_outputs c1 c2 < MODULUS) := by
  rw [pedersen_commit_eq_emod, sum_outputs_eq_emod]
  exact ⟨⟨Int.emod_nonneg _ (by decide), Int.emod_lt_of_pos _ MODULUS_pos⟩,
    ⟨Int.emod_nonneg _ (by decide), Int.emod_lt_of_pos _ MODULUS_pos⟩⟩

/-- Claim C9: a proof created for a negative value is rejected against every
commitment, including the one it was created for: the created proof
`2 * c1` is even while verification demands the odd value `2 * c2 + 1`. -/
theorem claim_C9_negative_proof_rejected (v c1 c2 : Int) (hv : v < 0) :
    toy_range_proof_verify c2 (toy_range_proof_create v c1) = false := by
  unfold toy_range_proof_verify toy_range_proof_create
  have hn : ¬ v ≥ 0 := by omega
  simp [hn]
  omega

theorem claim_C9_witness :
    (-5 : Int) < 0 ∧
      toy_range_proof_verify 5 (toy_range_proof_create (-5) 5) = false :=
  ⟨by decide, claim_C9_negative_proof_rejected (-5) 5 5 (by decide)⟩

/-- Claim C10: the range-proof encoding performs no modular reduction.
`toy_range_proof_create` returns exactly `2 * C` plus the validity bit as
plain integer arithmetic, and hence for every canonical commitment
`C ≥ (MODULUS - 1) / 2` with a non-negative value the returned proof is
at least `MODULUS`: range-proof scalars are not canonical. -/
theorem claim_C10_encoding_not_canonical :
    (∀ v c : Int, toy_range_proof_create v c =
        2 * c + (if v ≥ 0 then 1 else 0)) ∧
    (∀ v c : Int, 0 ≤ v → (MODULUS - 1) / 2 ≤ c → c < MODULUS →
        MODULUS ≤ toy_range_proof_create v c) := by
  constructor
  · intro v c
    show c * 2 + (if v ≥ 0 then (1:Int) else 0) = _
    ring
  · intro v c hv hc hcM
    have hrw : toy_range_proof_create v c = c * 2 + 1 := by
      show c * 2 + (if v ≥ 0 then (1:Int) else 0) = c * 2 + 1
      rw [if_pos hv]
    rw [hrw]
    unfold MODULUS at *
    omega

theorem claim_C10_witness :
    ((0 : Int) ≤ 0 ∧ (MODULUS - 1) / 2 ≤ (2 ^ 60 : Int) ∧
        (2 ^ 60 : Int) < MODULUS) ∧
      MODULUS ≤ toy_range_proof_create 0 (2 ^ 60) :=
  ⟨⟨by decide, by decide, by decide⟩,
    claim_C10_encoding_not_canonical.2 0 (2 ^ 60) (by decide) (by decide)
      (by decide)⟩

end PedersenTx
